import Mathlib

/-!
Verification model of the `mongodb-gridfs-ext` wrapper.

The repository extends a GridFS-style chunked blob store (the external
`GridFSBucket` collaborator) with filename-based lookup, byte/string
read-write helpers, and local-filesystem synchronization.  The wrapper code
(`src/bucket/common.rs`, `src/bucket/file_sync.rs`, `src/error.rs`) is
embedded below over an explicit store state; the collaborator's operations
(filter-based metadata find, chunked upload with atomic publication,
ordered chunk download) are modelled from the specification's collaborator
contract (spec sections 4.2 and 6), since their code lives in the external
`mongodb_gridfs` crate.

Conventions of the embedding:
  * `ObjectId` is an opaque identifier, modelled by a natural number.
  * Bytes are `Nat`; byte buffers are `List Nat`.
  * Rust `Result<T, GridFSExtError>` becomes `Except GridFSExtError T`.
  * A Rust `.unwrap()` on a missing value is a panic, not an error return;
    functions that contain such an unwrap return `Option (Except ...)`,
    with `none` standing for the panic.
  * The store keeps its metadata records in insertion (creation) order and
    `find` yields matches in that order, which determinizes MongoDB's
    natural order for a collection that only receives inserts.
-/

namespace GridFSExt

/-- An opaque, globally unique object identifier (bson `ObjectId`). -/
structure ObjectId where
  oid : Nat
deriving DecidableEq, Repr

/-- The BSON values that occur in GridFS files-collection metadata documents. -/
inductive Bson where
  | objectId (o : ObjectId)
  | str (s : String)
  | i64 (n : Int)
  | i32 (n : Int)
deriving DecidableEq, Repr

/-- A BSON document: an ordered association list of fields. -/
structure Document where
  fields : List (String × Bson)
deriving DecidableEq, Repr

namespace Document

/-- Look up a field by key (first occurrence). -/
def get (d : Document) (k : String) : Option Bson :=
  (d.fields.find? (fun p => decide (p.1 = k))).map (fun p => p.2)

/-- bson's `Document::get_object_id`: the field's value when it is present
with ObjectId type, `none` (an access error) otherwise. -/
def get_object_id (d : Document) (k : String) : Option ObjectId :=
  match d.get k with
  | some (Bson.objectId o) => some o
  | _ => none

/-- bson's `Document::get_str`. -/
def get_str (d : Document) (k : String) : Option String :=
  match d.get k with
  | some (Bson.str s) => some s
  | _ => none

/-- bson's `Document::get_i64`: only an `Int64` value is accepted. -/
def get_i64 (d : Document) (k : String) : Option Int :=
  match d.get k with
  | some (Bson.i64 n) => some n
  | _ => none

end Document

/-- One stored object: its files-collection metadata document together with
its ordered chunk list. -/
structure Entry where
  doc : Document
  chunks : List (List Nat)
deriving DecidableEq, Repr

/-- The chunked blob store state.  `entries` is in insertion (creation)
order; `nextId` generates fresh identifiers; `chunkSize` is the upload
chunking granularity. -/
structure Store where
  entries : List Entry
  nextId : Nat
  chunkSize : Nat
deriving DecidableEq, Repr

/-- Stand-in for `mongodb::error::Error` (opaque transport error). -/
structure MongoErr where
  code : Nat
deriving DecidableEq, Repr

/-- Stand-in for `std::io::Error`, by error kind.  `invalidData` is the kind
produced by `std::io::read_to_string` on invalid UTF-8. -/
inductive IOErr where
  | invalidData
  | notFound
  | other (code : Nat)
deriving DecidableEq, Repr

/-- src/error.rs `GridFSError`. -/
inductive GridFSError where
  | FileNotFound (filename : Option String) (id : Option ObjectId)
deriving DecidableEq, Repr

/-- The external crate's `mongodb_gridfs::GridFSError`. -/
inductive GFSLibError where
  | MongoError (e : MongoErr)
  | FileNotFound
deriving DecidableEq, Repr

/-- src/error.rs `GridFSExtError`. -/
inductive GridFSExtError where
  | MongoError (e : MongoErr)
  | GridFSError (e : GridFSExt.GridFSError)
  | IOError (e : IOErr)
deriving DecidableEq, Repr

/-- src/error.rs `impl From<mongodb_gridfs::GridFSError> for GridFSExtError`. -/
def fromGFSLib : GFSLibError → GridFSExtError
  | GFSLibError.MongoError e => GridFSExtError.MongoError e
  | GFSLibError.FileNotFound =>
      GridFSExtError.GridFSError (GridFSError.FileNotFound none none)

/-- Modelled from the spec: the collaborator's filter-based metadata lookup
with filter `{"filename": name}`; matches are yielded in insertion order
(spec section 6, "find metadata by filter"). -/
def Store.findByName (s : Store) (name : String) : List Document :=
  (s.entries.filter
    (fun e => decide (e.doc.get "filename" = some (Bson.str name)))).map
    (fun e => e.doc)

/-- Modelled from the spec: the collaborator's metadata lookup with filter
`{"_id": i}` (spec section 6). -/
def Store.findById (s : Store) (i : ObjectId) : List Entry :=
  s.entries.filter (fun e => decide (e.doc.get "_id" = some (Bson.objectId i)))

/-- Accumulator loop for `chunksOf`: `cur` is the chunk being filled. -/
def chunksOfGo (csz : Nat) (cur : List Nat) : List Nat → List (List Nat)
  | [] => if cur = [] then [] else [cur]
  | b :: bs =>
      if cur.length + 1 = csz then (cur ++ [b]) :: chunksOfGo csz [] bs
      else chunksOfGo csz (cur ++ [b]) bs

/-- Split a byte buffer into chunks of size `csz` (the last chunk may be
shorter; empty content yields no chunks). -/
def chunksOf (csz : Nat) (bs : List Nat) : List (List Nat) :=
  chunksOfGo csz [] bs

/-- The files-collection metadata document published for a completed upload:
its fresh `_id`, the `filename`, the byte `length`, and the content digest
`md5`. -/
def filesDoc (i : ObjectId) (name : String) (len : Nat) (digest : String) :
    Document :=
  ⟨[("_id", Bson.objectId i), ("filename", Bson.str name),
    ("length", Bson.i64 (Int.ofNat len)), ("md5", Bson.str digest)]⟩

/-- Modelled from the spec: the collaborator's upload stream
(`upload_from_stream` / the spec's `open_write`, section 4.2): the content
is chunked, and on completion a new metadata record for `name` is
atomically published under a fresh identifier.  A mid-stream failure
(injected through `fault`) publishes nothing and leaves the store
unchanged.  `dg` is the store's content digest function. -/
def Store.upload (dg : List Nat → String) (s : Store) (name : String)
    (content : List Nat) (fault : Option GFSLibError) :
    Store × Except GFSLibError ObjectId :=
  match fault with
  | some e => (s, Except.error e)
  | none =>
      let i : ObjectId := ⟨s.nextId⟩
      ({ entries := s.entries ++
          [⟨filesDoc i name content.length (dg content),
            chunksOf s.chunkSize content⟩],
         nextId := s.nextId + 1,
         chunkSize := s.chunkSize },
       Except.ok i)

/-- Modelled from the spec: the collaborator's `open_download_stream` (the
spec's `open_read`, section 4.2): the identifier's chunks in stored order;
`NotFound` if the identifier is unknown. -/
def Store.openDownloadStream (s : Store) (i : ObjectId) :
    Except GFSLibError (List (List Nat)) :=
  match s.findById i with
  | [] => Except.error GFSLibError.FileNotFound
  | e :: _ => Except.ok e.chunks

/-- UTF-8 encoding of one Unicode scalar value (Rust `char::encode_utf8`). -/
def utf8EncodeChar (c : Char) : List Nat :=
  let v := c.toNat
  if v < 128 then [v]
  else if v < 2048 then [192 + v / 64, 128 + v % 64]
  else if v < 65536 then [224 + v / 4096, 128 + v / 64 % 64, 128 + v % 64]
  else [240 + v / 262144, 128 + v / 4096 % 64, 128 + v / 64 % 64, 128 + v % 64]

/-- Rust `str::as_bytes`: the UTF-8 byte representation of a string. -/
def asBytes (s : String) : List Nat :=
  s.data.flatMap utf8EncodeChar

/-- Whether a byte is a UTF-8 continuation byte (`0x80..=0xBF`). -/
def cont (b : Nat) : Bool :=
  decide (128 ≤ b) && decide (b < 192)

/-- One step of strict UTF-8 decoding for a two-byte sequence:
lead byte `0xC2..=0xDF` followed by one continuation byte. -/
def utf8Step2 (b0 : Nat) : List Nat → Option (Nat × List Nat)
  | b1 :: rest2 =>
      if cont b1 then some ((b0 - 192) * 64 + (b1 - 128), rest2) else none
  | [] => none

/-- One step of strict UTF-8 decoding for a three-byte sequence: lead byte
`0xE0..=0xEF` with the lead-specific bound on the first continuation byte
(`0xE0` excludes overlong forms, `0xED` excludes surrogates). -/
def utf8Step3 (b0 : Nat) : List Nat → Option (Nat × List Nat)
  | b1 :: b2 :: rest3 =>
      if (if b0 = 224 then decide (160 ≤ b1) && decide (b1 < 192)
          else if b0 = 237 then decide (128 ≤ b1) && decide (b1 < 160)
          else cont b1) && cont b2 then
        some ((b0 - 224) * 4096 + (b1 - 128) * 64 + (b2 - 128), rest3)
      else none
  | _ => none

/-- One step of strict UTF-8 decoding for a four-byte sequence: lead byte
`0xF0..=0xF4` with the lead-specific bound on the first continuation byte
(`0xF0` excludes overlong forms, `0xF4` excludes values above `0x10FFFF`). -/
def utf8Step4 (b0 : Nat) : List Nat → Option (Nat × List Nat)
  | b1 :: b2 :: b3 :: rest4 =>
      if (if b0 = 240 then decide (144 ≤ b1) && decide (b1 < 192)
          else if b0 = 244 then decide (128 ≤ b1) && decide (b1 < 144)
          else cont b1) && cont b2 && cont b3 then
        some ((b0 - 240) * 262144 + (b1 - 128) * 4096 +
          (b2 - 128) * 64 + (b3 - 128), rest4)
      else none
  | _ => none

/-- Decode one Unicode scalar value from the front of a byte sequence, with
exactly the byte-pattern validation of Rust's `core::str` (rejecting
overlong forms, surrogates, and values above `0x10FFFF`): the scalar value
and the unconsumed remainder, or `none` on invalid input. -/
def utf8Step : List Nat → Option (Nat × List Nat)
  | [] => none
  | b0 :: rest =>
    if b0 < 128 then some (b0, rest)
    else if b0 < 194 then none
    else if b0 < 224 then utf8Step2 b0 rest
    else if b0 < 240 then utf8Step3 b0 rest
    else if b0 < 245 then utf8Step4 b0 rest
    else none

/-- Fuel-indexed strict UTF-8 decoding loop; each step consumes at least
one byte, so fuel at least the byte length never runs out. -/
def utf8DecodeFuel : Nat → List Nat → Option (List Char)
  | _, [] => some []
  | 0, _ :: _ => none
  | n + 1, b0 :: rest =>
    match utf8Step (b0 :: rest) with
    | none => none
    | some (cp, r) => (utf8DecodeFuel n r).map (fun cs => Char.ofNat cp :: cs)

/-- Strict UTF-8 decoding of a byte sequence into Unicode scalar values
(Rust's `core::str` validation).  `none` models Rust's UTF-8 error. -/
def utf8Decode (bs : List Nat) : Option (List Char) :=
  utf8DecodeFuel bs.length bs

/-- Rust `std::io::read_to_string` over an in-memory byte slice: UTF-8
decoding, failing with an `InvalidData` I/O error on invalid bytes, which
`?` converts into `GridFSExtError::IOError`. -/
def readToString (bs : List Nat) : Except GridFSExtError String :=
  match utf8Decode bs with
  | some cs => Except.ok (String.mk cs)
  | none => Except.error (GridFSExtError.IOError IOErr.invalidData)

namespace Bucket

/-- src/bucket/common.rs `GridFSBucketExt::id`: find by filename, take the
first yielded document, `FileNotFound{filename, None}` when the cursor is
empty, then `doc.get_object_id("_id").unwrap()` (`none` = panic). -/
def id (s : Store) (filename : String) : Option (Except GridFSExtError ObjectId) :=
  match (s.findByName filename).head? with
  | none =>
      some (Except.error (GridFSExtError.GridFSError
        (GridFSError.FileNotFound (some filename) none)))
  | some d =>
      match d.get_object_id "_id" with
      | some o => some (Except.ok o)
      | none => none

/-- src/bucket/common.rs `GridFSBucketExt::find_one_by_id`. -/
def find_one_by_id (s : Store) (i : ObjectId) : Except GridFSExtError Document :=
  match (s.findById i).head? with
  | none =>
      Except.error (GridFSExtError.GridFSError
        (GridFSError.FileNotFound none (some i)))
  | some e => Except.ok e.doc

/-- src/bucket/common.rs `GridFSBucketExt::filename`:
`find_one_by_id` then `doc.get_str("filename").unwrap()` (`none` = panic). -/
def filename (s : Store) (i : ObjectId) : Option (Except GridFSExtError String) :=
  match find_one_by_id s i with
  | Except.error e => some (Except.error e)
  | Except.ok d =>
      match d.get_str "filename" with
      | some v => some (Except.ok v)
      | none => none

/-- src/bucket/common.rs `GridFSBucketExt::size`:
`find_one_by_id` then `doc.get_i64("length").unwrap()` (`none` = panic). -/
def size (s : Store) (i : ObjectId) : Option (Except GridFSExtError Int) :=
  match find_one_by_id s i with
  | Except.error e => some (Except.error e)
  | Except.ok d =>
      match d.get_i64 "length" with
      | some v => some (Except.ok v)
      | none => none

/-- src/bucket/common.rs `GridFSBucketExt::md5`:
`find_one_by_id` then `doc.get_str("md5").unwrap()` (`none` = panic). -/
def md5 (s : Store) (i : ObjectId) : Option (Except GridFSExtError String) :=
  match find_one_by_id s i with
  | Except.error e => some (Except.error e)
  | Except.ok d =>
      match d.get_str "md5" with
      | some v => some (Except.ok v)
      | none => none

/-- src/bucket/common.rs `GridFSBucketExt::read_bytes_by_id`: drain the
download stream, concatenating the chunks in order. -/
def read_bytes_by_id (s : Store) (i : ObjectId) :
    Except GridFSExtError (List Nat) :=
  match s.openDownloadStream i with
  | Except.error e => Except.error (fromGFSLib e)
  | Except.ok cs => Except.ok cs.flatten

/-- src/bucket/common.rs `GridFSBucketExt::read_bytes`: resolve the name,
then read by id (`none` = panic inside `id`). -/
def read_bytes (s : Store) (filename : String) :
    Option (Except GridFSExtError (List Nat)) :=
  match id s filename with
  | none => none
  | some (Except.error e) => some (Except.error e)
  | some (Except.ok i) => some (read_bytes_by_id s i)

/-- src/bucket/common.rs `GridFSBucketExt::read_string_by_id`. -/
def read_string_by_id (s : Store) (i : ObjectId) :
    Except GridFSExtError String :=
  match read_bytes_by_id s i with
  | Except.error e => Except.error e
  | Except.ok bs => readToString bs

/-- src/bucket/common.rs `GridFSBucketExt::read_string`. -/
def read_string (s : Store) (filename : String) :
    Option (Except GridFSExtError String) :=
  match read_bytes s filename with
  | none => none
  | some (Except.error e) => some (Except.error e)
  | some (Except.ok bs) => some (readToString bs)

/-- src/bucket/common.rs `GridFSBucketExt::write_bytes`:
`upload_from_stream` with default options, result discarded to `()`. -/
def write_bytes (dg : List Nat → String) (s : Store) (filename : String)
    (content : List Nat) (fault : Option GFSLibError) :
    Store × Except GridFSExtError Unit :=
  let p := Store.upload dg s filename content fault
  (p.1,
   match p.2 with
   | Except.error e => Except.error (fromGFSLib e)
   | Except.ok _ => Except.ok ())

/-- src/bucket/common.rs `GridFSBucketExt::write_string`:
delegates to `write_bytes` on `content.as_bytes()`. -/
def write_string (dg : List Nat → String) (s : Store) (filename : String)
    (content : String) (fault : Option GFSLibError) :
    Store × Except GridFSExtError Unit :=
  write_bytes dg s filename (asBytes content) fault

/-- src/bucket/common.rs `GridFSBucketExt::exists` (Lean reserves the word
`exists`): find by filename, `cursor.next().is_some()`. -/
def existsF (s : Store) (filename : String) : Except GridFSExtError Bool :=
  Except.ok (s.findByName filename).head?.isSome

end Bucket

/-- The local filesystem: a map from paths to file contents. -/
def FSState : Type := String → Option (List Nat)

/-- Model of `tokio::fs::File::create`: create or truncate the file at `p`. -/
def setFile (fs : FSState) (p : String) (c : List Nat) : FSState :=
  fun q => if q = p then some c else fs q

/-- Model of `write_all` on an open file: append a buffer to the file at `p`. -/
def appendFile (fs : FSState) (p : String) (c : List Nat) : FSState :=
  fun q => if q = p then some ((fs p).getD [] ++ c) else fs q

/-- The download loop of `download_to`: write each chunk in stream order. -/
def writeChunks (fs : FSState) (p : String) (cs : List (List Nat)) : FSState :=
  cs.foldl (fun acc c => appendFile acc p c) fs

namespace Bucket

/-- src/bucket/file_sync.rs `FileSync::download_to`: resolve the name,
create the local file, stream the chunks into it in order, return the
resolved identifier (`none` = panic inside `id`). -/
def download_to (s : Store) (fs : FSState) (filename : String)
    (localPath : String) :
    Option (FSState × Except GridFSExtError ObjectId) :=
  match id s filename with
  | none => none
  | some (Except.error e) => some (fs, Except.error e)
  | some (Except.ok i) =>
      let fs1 := setFile fs localPath []
      match s.openDownloadStream i with
      | Except.error e => some (fs1, Except.error (fromGFSLib e))
      | Except.ok chunks =>
          some (writeChunks fs1 localPath chunks, Except.ok i)

/-- src/bucket/file_sync.rs `FileSync::upload_from`: open the local file
(a missing file is a local I/O error), stream its bytes to the store's
upload, return the new identifier. -/
def upload_from (dg : List Nat → String) (s : Store) (fs : FSState)
    (filename : String) (localPath : String) (fault : Option GFSLibError) :
    Store × Except GridFSExtError ObjectId :=
  match fs localPath with
  | none => (s, Except.error (GridFSExtError.IOError IOErr.notFound))
  | some content =>
      let p := Store.upload dg s filename content fault
      (p.1, p.2.mapError fromGFSLib)

end Bucket

deriving instance DecidableEq for Except

/-- The empty store with chunk size `csz`. -/
def emptyStore (csz : Nat) : Store := ⟨[], 0, csz⟩

/-- A trivial digest function for concrete evaluations. -/
def dg0 : List Nat → String := fun _ => ""

/-- The bytes of `"hello"`. -/
def helloBytes : List Nat := [104, 101, 108, 108, 111]

/-- A store already holding one record named `"a.txt"` with content `[0]`. -/
def cexStore1 : Store := ⟨[⟨filesDoc ⟨0⟩ "a.txt" 1 "", [[0]]⟩], 1, 4⟩

/-- A store holding two records named `"dup"`: the record with identifier 1
was created first, the record with identifier 2 most recently. -/
def cexStore4 : Store :=
  ⟨[⟨filesDoc ⟨1⟩ "dup" 1 "", [[10]]⟩, ⟨filesDoc ⟨2⟩ "dup" 1 "", [[20]]⟩], 3, 4⟩

/-- A store holding one record named `"bin"` whose single content byte 255
is not valid UTF-8. -/
def cexStore5 : Store := ⟨[⟨filesDoc ⟨0⟩ "bin" 1 "", [[255]]⟩], 1, 4⟩

/-- The entry of `wStore6`: five bytes split over three chunks. -/
def cexEntry6 : Entry := ⟨filesDoc ⟨5⟩ "big" 5 "", [[1, 2], [3, 4], [5]]⟩

/-- A store holding one multi-chunk record named `"big"`. -/
def wStore6 : Store := ⟨[cexEntry6], 6, 2⟩

/-- A metadata document carrying only a typed `_id` field. -/
def badEntry : Entry := ⟨⟨[("_id", Bson.objectId ⟨0⟩)]⟩, []⟩

/-- A store holding one record whose metadata document lacks the
`filename`, `length` and `md5` fields. -/
def badStore : Store := ⟨[badEntry], 1, 4⟩

/-- The empty local filesystem. -/
def fsEmpty : FSState := fun _ => none

/-- A local filesystem holding one file at `"local.txt"`. -/
def fsOne : FSState :=
  fun p => if p = "local.txt" then some [1, 2, 3] else none

/-! ### UTF-8 round-trip lemmas -/

theorem cont_eq_true (b : Nat) (h1 : 128 ≤ b) (h2 : b < 192) :
    cont b = true := by
  unfold cont
  rw [Bool.and_eq_true, decide_eq_true_eq, decide_eq_true_eq]
  exact ⟨h1, h2⟩

theorem utf8Step_cons (b0 : Nat) (rest : List Nat) :
    utf8Step (b0 :: rest) =
      if b0 < 128 then some (b0, rest)
      else if b0 < 194 then none
      else if b0 < 224 then utf8Step2 b0 rest
      else if b0 < 240 then utf8Step3 b0 rest
      else if b0 < 245 then utf8Step4 b0 rest
      else none := rfl

theorem utf8Step_enc_one (v : Nat) (h : v < 128) (bs : List Nat) :
    utf8Step (v :: bs) = some (v, bs) := by
  rw [utf8Step_cons, if_pos h]

theorem utf8Step_enc_two (v : Nat) (h1 : 128 ≤ v) (h2 : v < 2048)
    (bs : List Nat) :
    utf8Step ((192 + v / 64) :: (128 + v % 64) :: bs) = some (v, bs) := by
  have e1 : ¬ (192 + v / 64 < 128) := by omega
  have e2 : ¬ (192 + v / 64 < 194) := by omega
  have e3 : 192 + v / 64 < 224 := by omega
  have e4 : cont (128 + v % 64) = true := cont_eq_true _ (by omega) (by omega)
  have e5 : (192 + v / 64 - 192) * 64 + (128 + v % 64 - 128) = v := by omega
  rw [utf8Step_cons, if_neg e1, if_neg e2, if_pos e3]
  simp only [utf8Step2]
  rw [e4, if_pos rfl, e5]

theorem utf8Step_enc_three (v : Nat) (h1 : 2048 ≤ v) (h2 : v < 65536)
    (hs : v < 55296 ∨ 57343 < v) (bs : List Nat) :
    utf8Step ((224 + v / 4096) :: (128 + v / 64 % 64) :: (128 + v % 64) :: bs)
      = some (v, bs) := by
  have e1 : ¬ (224 + v / 4096 < 128) := by omega
  have e2 : ¬ (224 + v / 4096 < 194) := by omega
  have e3 : ¬ (224 + v / 4096 < 224) := by omega
  have e4 : 224 + v / 4096 < 240 := by omega
  have e6 : (224 + v / 4096 - 224) * 4096 + (128 + v / 64 % 64 - 128) * 64 +
      (128 + v % 64 - 128) = v := by omega
  have e5 : (if 224 + v / 4096 = 224 then
        decide (160 ≤ 128 + v / 64 % 64) && decide (128 + v / 64 % 64 < 192)
      else if 224 + v / 4096 = 237 then
        decide (128 ≤ 128 + v / 64 % 64) && decide (128 + v / 64 % 64 < 160)
      else cont (128 + v / 64 % 64)) = true := by
    by_cases hc : v < 4096
    · rw [if_pos (by omega), Bool.and_eq_true, decide_eq_true_eq,
        decide_eq_true_eq]
      omega
    · by_cases hd : 53248 ≤ v ∧ v < 57344
      · rw [if_neg (by omega), if_pos (by omega), Bool.and_eq_true,
          decide_eq_true_eq, decide_eq_true_eq]
        omega
      · rw [if_neg (by omega), if_neg (by omega)]
        exact cont_eq_true _ (by omega) (by omega)
  rw [utf8Step_cons, if_neg e1, if_neg e2, if_neg e3, if_pos e4]
  simp only [utf8Step3]
  rw [e5, cont_eq_true _ (by omega) (by omega), Bool.and_self, if_pos rfl, e6]

theorem utf8Step_enc_four (v : Nat) (h1 : 65536 ≤ v) (h2 : v < 1114112)
    (bs : List Nat) :
    utf8Step ((240 + v / 262144) :: (128 + v / 4096 % 64) ::
        (128 + v / 64 % 64) :: (128 + v % 64) :: bs) = some (v, bs) := by
  have e1 : ¬ (240 + v / 262144 < 128) := by omega
  have e2 : ¬ (240 + v / 262144 < 194) := by omega
  have e3 : ¬ (240 + v / 262144 < 224) := by omega
  have e4 : ¬ (240 + v / 262144 < 240) := by omega
  have e5 : 240 + v / 262144 < 245 := by omega
  have e7 : (240 + v / 262144 - 240) * 262144 +
      (128 + v / 4096 % 64 - 128) * 4096 +
      (128 + v / 64 % 64 - 128) * 64 + (128 + v % 64 - 128) = v := by omega
  have e6 : (if 240 + v / 262144 = 240 then
        decide (144 ≤ 128 + v / 4096 % 64) && decide (128 + v / 4096 % 64 < 192)
      else if 240 + v / 262144 = 244 then
        decide (128 ≤ 128 + v / 4096 % 64) && decide (128 + v / 4096 % 64 < 144)
      else cont (128 + v / 4096 % 64)) = true := by
    by_cases hc : v < 262144
    · rw [if_pos (by omega), Bool.and_eq_true, decide_eq_true_eq,
        decide_eq_true_eq]
      omega
    · by_cases hd : 1048576 ≤ v
      · rw [if_neg (by omega), if_pos (by omega), Bool.and_eq_true,
          decide_eq_true_eq, decide_eq_true_eq]
        omega
      · rw [if_neg (by omega), if_neg (by omega)]
        exact cont_eq_true _ (by omega) (by omega)
  rw [utf8Step_cons, if_neg e1, if_neg e2, if_neg e3, if_neg e4, if_pos e5]
  simp only [utf8Step4]
  rw [e6, cont_eq_true _ (by omega) (by omega),
    cont_eq_true _ (by omega) (by omega), Bool.and_self, Bool.and_self,
    if_pos rfl, e7]

theorem utf8Step2_some_length (b0 : Nat) (r : List Nat) (cp : Nat)
    (rest : List Nat) (h : utf8Step2 b0 r = some (cp, rest)) :
    rest.length < r.length := by
  match r with
  | [] => exact Option.noConfusion h
  | b1 :: r2 =>
    simp only [utf8Step2] at h
    repeat' split at h
    all_goals
      first
      | exact Option.noConfusion h
      | (simp only [Option.some.injEq, Prod.mk.injEq] at h
         obtain ⟨h1, h2⟩ := h
         subst h2
         simp only [List.length_cons]
         omega)

theorem utf8Step3_some_length (b0 : Nat) (r : List Nat) (cp : Nat)
    (rest : List Nat) (h : utf8Step3 b0 r = some (cp, rest)) :
    rest.length < r.length := by
  match r with
  | [] => exact Option.noConfusion h
  | [b1] => exact Option.noConfusion h
  | b1 :: b2 :: r3 =>
    simp only [utf8Step3] at h
    repeat' split at h
    all_goals
      first
      | exact Option.noConfusion h
      | (simp only [Option.some.injEq, Prod.mk.injEq] at h
         obtain ⟨h1, h2⟩ := h
         subst h2
         simp only [List.length_cons]
         omega)

theorem utf8Step4_some_length (b0 : Nat) (r : List Nat) (cp : Nat)
    (rest : List Nat) (h : utf8Step4 b0 r = some (cp, rest)) :
    rest.length < r.length := by
  match r with
  | [] => exact Option.noConfusion h
  | [b1] => exact Option.noConfusion h
  | [b1, b2] => exact Option.noConfusion h
  | b1 :: b2 :: b3 :: r4 =>
    simp only [utf8Step4] at h
    repeat' split at h
    all_goals
      first
      | exact Option.noConfusion h
      | (simp only [Option.some.injEq, Prod.mk.injEq] at h
         obtain ⟨h1, h2⟩ := h
         subst h2
         simp only [List.length_cons]
         omega)

theorem utf8Step_some_length {bs : List Nat} {cp : Nat} {rest : List Nat}
    (h : utf8Step bs = some (cp, rest)) : rest.length < bs.length := by
  match bs with
  | [] => exact Option.noConfusion h
  | b0 :: r =>
    rw [utf8Step_cons] at h
    repeat' split at h
    all_goals
      first
      | exact Option.noConfusion h
      | (simp only [Option.some.injEq, Prod.mk.injEq] at h
         obtain ⟨h1, h2⟩ := h
         subst h2
         simp)
      | (have hl := utf8Step2_some_length _ _ _ _ h
         simp only [List.length_cons]
         omega)
      | (have hl := utf8Step3_some_length _ _ _ _ h
         simp only [List.length_cons]
         omega)
      | (have hl := utf8Step4_some_length _ _ _ _ h
         simp only [List.length_cons]
         omega)

theorem utf8DecodeFuel_succ_cons (n b0 : Nat) (r : List Nat) :
    utf8DecodeFuel (n + 1) (b0 :: r) =
      match utf8Step (b0 :: r) with
      | none => none
      | some (cp, rest) =>
          (utf8DecodeFuel n rest).map (fun cs => Char.ofNat cp :: cs) := rfl

theorem utf8DecodeFuel_eq_decode :
    ∀ (n : Nat) (bs : List Nat), bs.length ≤ n →
      utf8DecodeFuel n bs = utf8Decode bs := by
  intro n
  induction n using Nat.strong_induction_on with
  | _ n ih =>
    intro bs hlen
    match bs with
    | [] =>
      match n with
      | 0 => rfl
      | _ + 1 => rfl
    | b0 :: r =>
      match n with
      | 0 => simp at hlen
      | m + 1 =>
        show utf8DecodeFuel (m + 1) (b0 :: r)
          = utf8DecodeFuel (r.length + 1) (b0 :: r)
        rw [utf8DecodeFuel_succ_cons, utf8DecodeFuel_succ_cons]
        cases hstep : utf8Step (b0 :: r) with
        | none => rfl
        | some p =>
          obtain ⟨cp, rest⟩ := p
          have hr : rest.length < r.length + 1 := by
            simpa using utf8Step_some_length hstep
          have hm : r.length ≤ m := by simpa using hlen
          simp only []
          rw [ih m (by omega) rest (by omega),
            ih r.length (by omega) rest (by omega)]

theorem utf8Decode_cons_step (b0 : Nat) (r : List Nat) :
    utf8Decode (b0 :: r) =
      match utf8Step (b0 :: r) with
      | none => none
      | some (cp, rest) =>
          (utf8Decode rest).map (fun cs => Char.ofNat cp :: cs) := by
  show utf8DecodeFuel (r.length + 1) (b0 :: r) = _
  rw [utf8DecodeFuel_succ_cons]
  cases hstep : utf8Step (b0 :: r) with
  | none => rfl
  | some p =>
    obtain ⟨cp, rest⟩ := p
    have hr : rest.length < r.length + 1 := by
      simpa using utf8Step_some_length hstep
    simp only []
    rw [utf8DecodeFuel_eq_decode r.length rest (by omega)]

theorem char_toNat_valid (c : Char) :
    c.toNat < 55296 ∨ (57343 < c.toNat ∧ c.toNat < 1114112) := by
  have h := c.valid
  simp only [UInt32.isValidChar, Nat.isValidChar, Char.toNat] at h ⊢
  exact h

theorem utf8Decode_encodeChar (c : Char) (bs : List Nat) :
    utf8Decode (utf8EncodeChar c ++ bs)
      = (utf8Decode bs).map (fun cs => c :: cs) := by
  have hv := char_toNat_valid c
  by_cases h1 : c.toNat < 128
  · have henc : utf8EncodeChar c = [c.toNat] := by
      simp [utf8EncodeChar, h1]
    rw [henc]
    show utf8Decode (c.toNat :: bs) = _
    rw [utf8Decode_cons_step, utf8Step_enc_one c.toNat h1 bs]
    simp only []
    rw [Char.ofNat_toNat]
  · by_cases h2 : c.toNat < 2048
    · have henc : utf8EncodeChar c
          = [192 + c.toNat / 64, 128 + c.toNat % 64] := by
        simp [utf8EncodeChar, h1, h2]
      rw [henc]
      show utf8Decode ((192 + c.toNat / 64) :: (128 + c.toNat % 64) :: bs) = _
      rw [utf8Decode_cons_step, utf8Step_enc_two c.toNat (by omega) h2 bs]
      simp only []
      rw [Char.ofNat_toNat]
    · by_cases h3 : c.toNat < 65536
      · have henc : utf8EncodeChar c
            = [224 + c.toNat / 4096, 128 + c.toNat / 64 % 64,
               128 + c.toNat % 64] := by
          simp [utf8EncodeChar, h1, h2, h3]
        rw [henc]
        show utf8Decode ((224 + c.toNat / 4096) :: (128 + c.toNat / 64 % 64)
          :: (128 + c.toNat % 64) :: bs) = _
        rw [utf8Decode_cons_step,
          utf8Step_enc_three c.toNat (by omega) h3 (by omega) bs]
        simp only []
        rw [Char.ofNat_toNat]
      · have henc : utf8EncodeChar c
            = [240 + c.toNat / 262144, 128 + c.toNat / 4096 % 64,
               128 + c.toNat / 64 % 64, 128 + c.toNat % 64] := by
          simp [utf8EncodeChar, h1, h2, h3]
        rw [henc]
        show utf8Decode ((240 + c.toNat / 262144) :: (128 + c.toNat / 4096 % 64)
          :: (128 + c.toNat / 64 % 64) :: (128 + c.toNat % 64) :: bs) = _
        rw [utf8Decode_cons_step,
          utf8Step_enc_four c.toNat (by omega) (by omega) bs]
        simp only []
        rw [Char.ofNat_toNat]

theorem utf8Decode_encode_append (cs : List Char) (bs : List Nat) :
    utf8Decode (cs.flatMap utf8EncodeChar ++ bs)
      = (utf8Decode bs).map (fun ds => cs ++ ds) := by
  induction cs with
  | nil => simp
  | cons c cs ih =>
    simp only [List.flatMap_cons, List.append_assoc]
    rw [utf8Decode_encodeChar c _, ih]
    cases utf8Decode bs <;> simp

theorem utf8Decode_asBytes (s : String) :
    utf8Decode (asBytes s) = some s.data := by
  have h := utf8Decode_encode_append s.data []
  rw [List.append_nil] at h
  show utf8Decode (s.data.flatMap utf8EncodeChar) = some s.data
  rw [h]
  show (some ([] : List Char)).map (fun ds => s.data ++ ds) = some s.data
  simp

/-! ### Store model lemmas -/

theorem chunksOfGo_flatten (csz : Nat) (bs : List Nat) :
    ∀ cur : List Nat, (chunksOfGo csz cur bs).flatten = cur ++ bs := by
  induction bs with
  | nil =>
    intro cur
    by_cases h : cur = [] <;> simp [chunksOfGo, h]
  | cons b bs ih =>
    intro cur
    by_cases h : cur.length + 1 = csz <;>
      simp [chunksOfGo, h, ih]

theorem chunksOf_flatten (csz : Nat) (bs : List Nat) :
    (chunksOf csz bs).flatten = bs := by
  simpa using chunksOfGo_flatten csz bs []

theorem filesDoc_get_object_id (i : ObjectId) (name : String) (len : Nat)
    (digest : String) :
    (filesDoc i name len digest).get_object_id "_id" = some i := rfl

theorem filesDoc_get_filename (i : ObjectId) (name : String) (len : Nat)
    (digest : String) :
    (filesDoc i name len digest).get "filename" = some (Bson.str name) := rfl

theorem filesDoc_get_str_filename (i : ObjectId) (name : String) (len : Nat)
    (digest : String) :
    (filesDoc i name len digest).get_str "filename" = some name := rfl

theorem filesDoc_get_i64_length (i : ObjectId) (name : String) (len : Nat)
    (digest : String) :
    (filesDoc i name len digest).get_i64 "length" = some (Int.ofNat len) := rfl

theorem filesDoc_get_str_md5 (i : ObjectId) (name : String) (len : Nat)
    (digest : String) :
    (filesDoc i name len digest).get_str "md5" = some digest := rfl

theorem filesDoc_get_id (i : ObjectId) (name : String) (len : Nat)
    (digest : String) :
    (filesDoc i name len digest).get "_id" = some (Bson.objectId i) := rfl

theorem upload_none_fst (dg : List Nat → String) (s : Store) (name : String)
    (content : List Nat) :
    (Store.upload dg s name content none).1 =
      { entries := s.entries ++
          [⟨filesDoc ⟨s.nextId⟩ name content.length (dg content),
            chunksOf s.chunkSize content⟩],
        nextId := s.nextId + 1,
        chunkSize := s.chunkSize } := rfl

theorem findByName_upload (dg : List Nat → String) (s : Store) (name : String)
    (content : List Nat) :
    (Store.upload dg s name content none).1.findByName name
      = s.findByName name ++
        [filesDoc ⟨s.nextId⟩ name content.length (dg content)] := by
  rw [upload_none_fst]
  simp [Store.findByName, List.filter_append, filesDoc_get_filename]

/-- Every `_id` already present in the store is below the fresh-id counter
(the invariant a store that assigns `nextId`-style identifiers maintains). -/
def IdsBelow (s : Store) : Prop :=
  ∀ e ∈ s.entries, ∀ o : ObjectId,
    e.doc.get "_id" = some (Bson.objectId o) → o.oid < s.nextId

/-- A metadata document carrying the four typed fields the accessors
unwrap: an ObjectId `_id`, a string `filename`, an `i64` `length`, and a
string `md5`. -/
def WFDoc (d : Document) : Prop :=
  (d.get_object_id "_id").isSome ∧ (d.get_str "filename").isSome ∧
  (d.get_i64 "length").isSome ∧ (d.get_str "md5").isSome

/-- Every metadata document in the store is well formed. -/
def WFStore (s : Store) : Prop :=
  ∀ e ∈ s.entries, WFDoc e.doc

theorem findById_upload (dg : List Nat → String) (s : Store) (name : String)
    (content : List Nat) (hfresh : IdsBelow s) :
    (Store.upload dg s name content none).1.findById ⟨s.nextId⟩
      = [⟨filesDoc ⟨s.nextId⟩ name content.length (dg content),
          chunksOf s.chunkSize content⟩] := by
  rw [upload_none_fst]
  simp only [Store.findById, List.filter_append]
  have h1 : s.entries.filter
      (fun e => decide (e.doc.get "_id"
        = some (Bson.objectId ⟨s.nextId⟩))) = [] := by
    rw [List.filter_eq_nil_iff]
    intro e he
    simp only [decide_eq_true_eq]
    intro hc
    have hlt := hfresh e he ⟨s.nextId⟩ hc
    simp at hlt
  rw [h1]
  simp [filesDoc_get_id]

theorem id_upload_fresh (dg : List Nat → String) (s : Store) (name : String)
    (content : List Nat) (hempty : s.findByName name = []) :
    Bucket.id (Store.upload dg s name content none).1 name
      = some (Except.ok ⟨s.nextId⟩) := by
  unfold Bucket.id
  rw [findByName_upload, hempty]
  simp [filesDoc_get_object_id]

theorem read_bytes_by_id_upload (dg : List Nat → String) (s : Store)
    (name : String) (content : List Nat) (hfresh : IdsBelow s) :
    Bucket.read_bytes_by_id (Store.upload dg s name content none).1 ⟨s.nextId⟩
      = Except.ok content := by
  unfold Bucket.read_bytes_by_id Store.openDownloadStream
  rw [findById_upload dg s name content hfresh]
  simp [chunksOf_flatten]

theorem read_bytes_write_fresh (dg : List Nat → String) (s : Store)
    (name : String) (content : List Nat) (hempty : s.findByName name = [])
    (hfresh : IdsBelow s) :
    Bucket.read_bytes (Bucket.write_bytes dg s name content none).1 name
      = some (Except.ok content) := by
  have h1 : (Bucket.write_bytes dg s name content none).1
      = (Store.upload dg s name content none).1 := rfl
  rw [h1]
  unfold Bucket.read_bytes
  rw [id_upload_fresh dg s name content hempty]
  simp only []
  rw [read_bytes_by_id_upload dg s name content hfresh]

theorem setFile_get (fs : FSState) (p : String) (c : List Nat) :
    setFile fs p c p = some c := by
  simp [setFile]

theorem writeChunks_get (p : String) (cs : List (List Nat)) :
    ∀ (fs : FSState) (acc : List Nat), fs p = some acc →
      writeChunks fs p cs p = some (acc ++ cs.flatten) := by
  induction cs with
  | nil =>
    intro fs acc h
    simpa [writeChunks] using h
  | cons c cs ih =>
    intro fs acc h
    have h2 : (appendFile fs p c) p = some (acc ++ c) := by
      simp [appendFile, h]
    have h3 := ih (appendFile fs p c) (acc ++ c) h2
    simpa [writeChunks, List.append_assoc] using h3

theorem readToString_of_invalid (bs : List Nat) (h : utf8Decode bs = none) :
    readToString bs
      = Except.error (GridFSExtError.IOError IOErr.invalidData) := by
  unfold readToString
  rw [h]

theorem readToString_of_valid (bs : List Nat) (cs : List Char)
    (h : utf8Decode bs = some cs) :
    readToString bs = Except.ok (String.mk cs) := by
  unfold readToString
  rw [h]

theorem readToString_ok_iff (bs : List Nat) (str : String) :
    readToString bs = Except.ok str ↔ utf8Decode bs = some str.data := by
  obtain ⟨data⟩ := str
  unfold readToString
  cases hd : utf8Decode bs with
  | none => simp
  | some cs => simp [String.ext_iff]

theorem head?_mem {α : Type} {l : List α} {a : α} (h : l.head? = some a) :
    a ∈ l := by
  cases l with
  | nil => exact Option.noConfusion h
  | cons x xs =>
    simp only [List.head?_cons, Option.some.injEq] at h
    subst h
    exact List.mem_cons_self x xs

theorem mem_findByName_doc {s : Store} {name : String} {d : Document}
    (h : d ∈ s.findByName name) : ∃ e ∈ s.entries, e.doc = d := by
  unfold Store.findByName at h
  obtain ⟨e, he, rfl⟩ := List.mem_map.mp h
  exact ⟨e, (List.mem_filter.mp he).1, rfl⟩

theorem mem_findById {s : Store} {i : ObjectId} {e : Entry}
    (h : e ∈ s.findById i) : e ∈ s.entries :=
  (List.mem_filter.mp h).1

/-! ### Claim theorems -/

/-- C1 (counterexample): the round trip fails as universally stated.  In a
store already holding a record named `"a.txt"` with content `[0]`,
`write_bytes("a.txt", [1])` completes successfully, yet the subsequent
`read_bytes("a.txt")` does not return `[1]`: the name-to-id lookup takes
the first record in the store's find order, which is the pre-existing one. -/
theorem c1_counterexample :
    (Bucket.write_bytes dg0 cexStore1 "a.txt" [1] none).2 = Except.ok () ∧
    Bucket.read_bytes
        (Bucket.write_bytes dg0 cexStore1 "a.txt" [1] none).1 "a.txt"
      ≠ some (Except.ok [1]) := by
  constructor
  · rfl
  · decide

/-- C1 (amended): for every store in which no live record matches `name`
and every identifier in the store is below the fresh-id counter, and for
every byte sequence `content` (including the empty one),
`write_bytes(name, content)` completes successfully and a subsequent
`read_bytes(name)` returns exactly `content`. -/
theorem c1_roundtrip_fresh_name (dg : List Nat → String) (s : Store)
    (name : String) (content : List Nat) (hempty : s.findByName name = [])
    (hfresh : IdsBelow s) :
    (Bucket.write_bytes dg s name content none).2 = Except.ok () ∧
    Bucket.read_bytes (Bucket.write_bytes dg s name content none).1 name
      = some (Except.ok content) :=
  ⟨rfl, read_bytes_write_fresh dg s name content hempty hfresh⟩

theorem c1_roundtrip_fresh_name_witness :
    Bucket.read_bytes
        (Bucket.write_bytes dg0 (emptyStore 2) "a.txt" helloBytes none).1
        "a.txt"
      = some (Except.ok helloBytes) :=
  (c1_roundtrip_fresh_name dg0 (emptyStore 2) "a.txt" helloBytes
    (by decide)
    (by intro e he o h; simp [emptyStore] at he)).2

/-- C2: `exists` never fails: it always returns a boolean, returns `false`
(not a `NotFound` error) when no live record matches the name, and returns
`true` immediately after a completed write to that name. -/
theorem c2_exists_never_fails (s : Store) (name : String) :
    (∃ b : Bool, Bucket.existsF s name = Except.ok b) ∧
    (s.findByName name = [] → Bucket.existsF s name = Except.ok false) ∧
    (∀ (dg : List Nat → String) (content : List Nat)
        (fault : Option GFSLibError),
      (Bucket.write_bytes dg s name content fault).2 = Except.ok () →
      Bucket.existsF (Bucket.write_bytes dg s name content fault).1 name
        = Except.ok true) := by
  refine ⟨⟨_, rfl⟩, ?_, ?_⟩
  · intro h
    unfold Bucket.existsF
    rw [h]
    rfl
  · intro dg content fault hok
    cases fault with
    | some e => exact Except.noConfusion hok
    | none =>
      unfold Bucket.existsF
      rw [show (Bucket.write_bytes dg s name content none).1
          = (Store.upload dg s name content none).1 from rfl]
      rw [findByName_upload]
      cases s.findByName name <;> simp

theorem c2_exists_never_fails_witness :
    Bucket.existsF
        (Bucket.write_bytes dg0 (emptyStore 2) "a.txt" helloBytes none).1
        "a.txt"
      = Except.ok true :=
  (c2_exists_never_fails (emptyStore 2) "a.txt").2.2 dg0 helloBytes none rfl

/-- C3: on a name with no matching live record, `id` (the spec's resolve),
`read_bytes` and `read_string` each fail with
`FileNotFound{filename: Some(name), id: None}`. -/
theorem c3_unwritten_name_not_found (s : Store) (name : String)
    (h : s.findByName name = []) :
    Bucket.id s name
      = some (Except.error (GridFSExtError.GridFSError
          (GridFSError.FileNotFound (some name) none))) ∧
    Bucket.read_bytes s name
      = some (Except.error (GridFSExtError.GridFSError
          (GridFSError.FileNotFound (some name) none))) ∧
    Bucket.read_string s name
      = some (Except.error (GridFSExtError.GridFSError
          (GridFSError.FileNotFound (some name) none))) := by
  have h1 : Bucket.id s name
      = some (Except.error (GridFSExtError.GridFSError
          (GridFSError.FileNotFound (some name) none))) := by
    unfold Bucket.id
    rw [h]
    rfl
  have h2 : Bucket.read_bytes s name
      = some (Except.error (GridFSExtError.GridFSError
          (GridFSError.FileNotFound (some name) none))) := by
    unfold Bucket.read_bytes
    rw [h1]
  have h3 : Bucket.read_string s name
      = some (Except.error (GridFSExtError.GridFSError
          (GridFSError.FileNotFound (some name) none))) := by
    unfold Bucket.read_string
    rw [h2]
  exact ⟨h1, h2, h3⟩

theorem c3_unwritten_name_not_found_witness :
    Bucket.read_bytes (emptyStore 2) "b.txt"
      = some (Except.error (GridFSExtError.GridFSError
          (GridFSError.FileNotFound (some "b.txt") none))) :=
  (c3_unwritten_name_not_found (emptyStore 2) "b.txt" (by decide)).2.1

/-- C4 (counterexample): with two live records sharing the name `"dup"`,
created in the order identifier 1 then identifier 2, `id("dup")` returns
identifier 1 — the earliest created — not the most recently created
identifier 2 that the claim predicts. -/
theorem c4_counterexample :
    Bucket.id cexStore4 "dup" = some (Except.ok ⟨1⟩) ∧
    Bucket.id cexStore4 "dup" ≠ some (Except.ok ⟨2⟩) := by
  decide

/-- C4 (amended): when multiple live records share a filename, `id` returns
the identifier of the first matching record in the store's find order —
under insertion order, the earliest created — not the most recent. -/
theorem c4_id_first_match (s : Store) (name : String) (d : Document)
    (rest : List Document) (o : ObjectId)
    (hfind : s.findByName name = d :: rest)
    (hid : d.get_object_id "_id" = some o) :
    Bucket.id s name = some (Except.ok o) := by
  unfold Bucket.id
  rw [hfind]
  simp [hid]

theorem c4_id_first_match_witness :
    Bucket.id cexStore4 "dup" = some (Except.ok ⟨1⟩) :=
  c4_id_first_match cexStore4 "dup" (filesDoc ⟨1⟩ "dup" 1 "")
    [filesDoc ⟨2⟩ "dup" 1 ""] ⟨1⟩ (by decide) (by decide)

/-- C5: reading stored bytes as text fails with the decode error
(`IOError(InvalidData)`, the spec's `DecodeError`) exactly when the bytes
are not valid UTF-8, both by name and by identifier; on valid bytes it
returns the decoded string, so the text round trip
`write_string` / `read_string` holds for every string. -/
theorem c5_read_string_decode :
    (∀ (s : Store) (i : ObjectId) (bs : List Nat),
      Bucket.read_bytes_by_id s i = Except.ok bs →
      (utf8Decode bs = none →
        Bucket.read_string_by_id s i
          = Except.error (GridFSExtError.IOError IOErr.invalidData)) ∧
      (∀ cs : List Char, utf8Decode bs = some cs →
        Bucket.read_string_by_id s i = Except.ok (String.mk cs))) ∧
    (∀ (s : Store) (name : String) (bs : List Nat),
      Bucket.read_bytes s name = some (Except.ok bs) →
      (utf8Decode bs = none →
        Bucket.read_string s name
          = some (Except.error (GridFSExtError.IOError IOErr.invalidData))) ∧
      (∀ cs : List Char, utf8Decode bs = some cs →
        Bucket.read_string s name = some (Except.ok (String.mk cs)))) ∧
    (∀ (dg : List Nat → String) (s : Store) (name : String) (str : String),
      s.findByName name = [] → IdsBelow s →
      Bucket.read_string (Bucket.write_string dg s name str none).1 name
        = some (Except.ok str)) := by
  refine ⟨?_, ?_, ?_⟩
  · intro s i bs h
    constructor
    · intro hd
      unfold Bucket.read_string_by_id
      rw [h]
      exact readToString_of_invalid bs hd
    · intro cs hd
      unfold Bucket.read_string_by_id
      rw [h]
      exact readToString_of_valid bs cs hd
  · intro s name bs h
    constructor
    · intro hd
      unfold Bucket.read_string
      rw [h]
      simp only []
      rw [readToString_of_invalid bs hd]
    · intro cs hd
      unfold Bucket.read_string
      rw [h]
      simp only []
      rw [readToString_of_valid bs cs hd]
  · intro dg s name str hempty hfresh
    have hb : Bucket.read_bytes (Bucket.write_bytes dg s name
        (asBytes str) none).1 name = some (Except.ok (asBytes str)) :=
      read_bytes_write_fresh dg s name (asBytes str) hempty hfresh
    show Bucket.read_string (Bucket.write_bytes dg s name
        (asBytes str) none).1 name = some (Except.ok str)
    unfold Bucket.read_string
    rw [hb]
    simp only []
    rw [readToString_of_valid (asBytes str) str.data (utf8Decode_asBytes str)]

theorem c5_read_string_decode_witness :
    Bucket.read_string_by_id cexStore5 ⟨0⟩
      = Except.error (GridFSExtError.IOError IOErr.invalidData) :=
  ((c5_read_string_decode).1 cexStore5 ⟨0⟩ [255] (by decide)).1 (by decide)

/-- C6: a successful `download_to(name, path)` resolves `name` to an
identifier, creates the local file and streams the resolved record's
chunks into it in stored order: the local file ends up holding exactly the
concatenation of the stored chunks (the stored object's bytes), and the
resolved identifier is returned; in particular, for a record whose content
was uploaded as `content`, the local file holds exactly `content`,
whatever the chunk count. -/
theorem c6_download_to_reproduces_content (s : Store) (fs : FSState)
    (name path : String) (i : ObjectId) (e : Entry) (rest : List Entry)
    (hid : Bucket.id s name = some (Except.ok i))
    (hfind : s.findById i = e :: rest) :
    Bucket.download_to s fs name path
      = some (writeChunks (setFile fs path []) path e.chunks, Except.ok i) ∧
    (writeChunks (setFile fs path []) path e.chunks) path
      = some e.chunks.flatten ∧
    (∀ (csz : Nat) (content : List Nat), e.chunks = chunksOf csz content →
      (writeChunks (setFile fs path []) path e.chunks) path = some content) := by
  have hfile : (writeChunks (setFile fs path []) path e.chunks) path
      = some e.chunks.flatten := by
    have h := writeChunks_get path e.chunks (setFile fs path []) []
      (setFile_get fs path [])
    simpa using h
  refine ⟨?_, hfile, ?_⟩
  · unfold Bucket.download_to
    rw [hid]
    simp only []
    unfold Store.openDownloadStream
    rw [hfind]
  · intro csz content hc
    rw [hfile, hc, chunksOf_flatten]

theorem c6_download_to_reproduces_content_witness :
    Bucket.download_to wStore6 fsEmpty "big" "out.txt"
      = some (writeChunks (setFile fsEmpty "out.txt" []) "out.txt"
          cexEntry6.chunks, Except.ok ⟨5⟩) ∧
    (writeChunks (setFile fsEmpty "out.txt" []) "out.txt"
        cexEntry6.chunks) "out.txt" = some [1, 2, 3, 4, 5] :=
  ⟨(c6_download_to_reproduces_content wStore6 fsEmpty "big" "out.txt" ⟨5⟩
      cexEntry6 [] (by decide) (by decide)).1,
   (c6_download_to_reproduces_content wStore6 fsEmpty "big" "out.txt" ⟨5⟩
      cexEntry6 [] (by decide) (by decide)).2.1⟩

/-- C7: a write that fails mid-stream publishes no record: the store is
unchanged, the call returns an error, a subsequent `id` on the target name
gives the same result as before the attempt — `FileNotFound` when no prior
record matches — and a failed `upload_from` likewise leaves the store
unchanged. -/
theorem c7_failed_write_publishes_nothing (dg : List Nat → String)
    (s : Store) (name : String) (content : List Nat) (e : GFSLibError) :
    (Bucket.write_bytes dg s name content (some e)).1 = s ∧
    (Bucket.write_bytes dg s name content (some e)).2
      = Except.error (fromGFSLib e) ∧
    Bucket.id (Bucket.write_bytes dg s name content (some e)).1 name
      = Bucket.id s name ∧
    (s.findByName name = [] →
      Bucket.id (Bucket.write_bytes dg s name content (some e)).1 name
        = some (Except.error (GridFSExtError.GridFSError
            (GridFSError.FileNotFound (some name) none)))) ∧
    (∀ (fs : FSState) (path : String),
      (Bucket.upload_from dg s fs name path (some e)).1 = s) := by
  refine ⟨rfl, rfl, rfl, ?_, ?_⟩
  · intro h
    show Bucket.id s name = _
    unfold Bucket.id
    rw [h]
    rfl
  · intro fs path
    unfold Bucket.upload_from
    cases hfs : fs path <;> rfl

theorem c7_failed_write_publishes_nothing_witness :
    Bucket.id (Bucket.write_bytes dg0 (emptyStore 4) "w.txt" [7]
        (some (GFSLibError.MongoError ⟨3⟩))).1 "w.txt"
      = some (Except.error (GridFSExtError.GridFSError
          (GridFSError.FileNotFound (some "w.txt") none))) :=
  (c7_failed_write_publishes_nothing dg0 (emptyStore 4) "w.txt" [7]
    (GFSLibError.MongoError ⟨3⟩)).2.2.2.1 (by decide)

/-- C8: in `upload_from(name, local_path)`, a failure to open the local
file surfaces as the local-filesystem error variant `IOError`, a failure
of the underlying store surfaces as the remote error variant `MongoError`,
and the two variants are never equal. -/
theorem c8_upload_from_error_separation (dg : List Nat → String) (s : Store)
    (fs : FSState) (name path : String) (fault : Option GFSLibError) :
    (fs path = none →
      Bucket.upload_from dg s fs name path fault
        = (s, Except.error (GridFSExtError.IOError IOErr.notFound))) ∧
    (∀ (content : List Nat) (m : MongoErr),
      fs path = some content → fault = some (GFSLibError.MongoError m) →
      (Bucket.upload_from dg s fs name path fault).2
        = Except.error (GridFSExtError.MongoError m)) ∧
    (∀ (io : IOErr) (m : MongoErr),
      GridFSExtError.IOError io ≠ GridFSExtError.MongoError m) := by
  refine ⟨?_, ?_, ?_⟩
  · intro h
    unfold Bucket.upload_from
    rw [h]
  · intro content m hc hf
    unfold Bucket.upload_from
    rw [hc, hf]
    rfl
  · intro io m h
    exact GridFSExtError.noConfusion h

theorem c8_upload_from_error_separation_witness :
    Bucket.upload_from dg0 (emptyStore 4) fsEmpty "n.txt" "missing.txt" none
      = ((emptyStore 4),
         Except.error (GridFSExtError.IOError IOErr.notFound)) ∧
    (Bucket.upload_from dg0 (emptyStore 4) fsOne "n.txt" "local.txt"
        (some (GFSLibError.MongoError ⟨9⟩))).2
      = Except.error (GridFSExtError.MongoError ⟨9⟩) :=
  ⟨(c8_upload_from_error_separation dg0 (emptyStore 4) fsEmpty "n.txt"
      "missing.txt" none).1 rfl,
   (c8_upload_from_error_separation dg0 (emptyStore 4) fsOne "n.txt"
      "local.txt" (some (GFSLibError.MongoError ⟨9⟩))).2.1 [1, 2, 3] ⟨9⟩
      (by decide) rfl⟩

/-- C9: `write_string(name, s)` is exactly `write_bytes(name, s.as_bytes())`,
and `read_string` (by name or by identifier) succeeds with string `s`
exactly when the corresponding `read_bytes` succeeds with a byte sequence
that is valid UTF-8 and decodes to `s`. -/
theorem c9_string_refines_bytes :
    (∀ (dg : List Nat → String) (s : Store) (name content : String)
        (fault : Option GFSLibError),
      Bucket.write_string dg s name content fault
        = Bucket.write_bytes dg s name (asBytes content) fault) ∧
    (∀ (s : Store) (i : ObjectId) (str : String),
      Bucket.read_string_by_id s i = Except.ok str ↔
        ∃ bs : List Nat, Bucket.read_bytes_by_id s i = Except.ok bs ∧
          utf8Decode bs = some str.data) ∧
    (∀ (s : Store) (name : String) (str : String),
      Bucket.read_string s name = some (Except.ok str) ↔
        ∃ bs : List Nat, Bucket.read_bytes s name = some (Except.ok bs) ∧
          utf8Decode bs = some str.data) := by
  refine ⟨fun dg s name content fault => rfl, ?_, ?_⟩
  · intro s i str
    unfold Bucket.read_string_by_id
    cases hb : Bucket.read_bytes_by_id s i with
    | error e =>
      constructor
      · intro h
        exact absurd h (by simp)
      · rintro ⟨bs, hbs, hd⟩
        exact absurd hbs (by simp)
    | ok bs =>
      simp only []
      rw [readToString_ok_iff]
      constructor
      · intro h
        exact ⟨bs, rfl, h⟩
      · rintro ⟨bs2, hbs, hd⟩
        obtain rfl : bs = bs2 := by
          simpa using hbs
        exact hd
  · intro s name str
    unfold Bucket.read_string
    cases hb : Bucket.read_bytes s name with
    | none =>
      constructor
      · intro h
        exact absurd h (by simp)
      · rintro ⟨bs, hbs, hd⟩
        exact absurd hbs (by simp)
    | some r =>
      cases r with
      | error e =>
        constructor
        · intro h
          simp only [] at h
          exact absurd h (by simp)
        · rintro ⟨bs, hbs, hd⟩
          exact absurd hbs (by simp)
      | ok bs =>
        simp only []
        constructor
        · intro h
          refine ⟨bs, rfl, ?_⟩
          rw [← readToString_ok_iff]
          simpa using h
        · rintro ⟨bs2, hbs, hd⟩
          obtain rfl : bs = bs2 := by
            simpa using hbs
          rw [readToString_ok_iff bs str |>.mpr hd]

theorem c9_string_refines_bytes_witness :
    Bucket.read_string_by_id wStore6 ⟨5⟩
      = Except.ok (String.mk ['\x01', '\x02', '\x03', '\x04', '\x05']) ↔
      ∃ bs : List Nat, Bucket.read_bytes_by_id wStore6 ⟨5⟩ = Except.ok bs ∧
        utf8Decode bs
          = some (String.mk ['\x01', '\x02', '\x03', '\x04', '\x05']).data :=
  (c9_string_refines_bytes).2.1 wStore6 ⟨5⟩
    (String.mk ['\x01', '\x02', '\x03', '\x04', '\x05'])

/-- C10: the metadata accessors unwrap typed fields of the fetched
document — `id` requires an ObjectId `_id`, `filename` a string
`filename`, `size` an `i64` `length`, `md5` a string `md5`.  When every
document in the store carries those fields with those types the panic
branches are unreachable (no accessor returns the panic value `none`),
write operations preserve that precondition, and on a document missing
the field or holding another type the accessor panics (`none`) instead of
returning an error. -/
theorem c10_accessors_unwrap_typed_fields (s : Store) (i : ObjectId)
    (name : String) :
    (WFStore s →
      Bucket.id s name ≠ none ∧ Bucket.filename s i ≠ none ∧
      Bucket.size s i ≠ none ∧ Bucket.md5 s i ≠ none) ∧
    (∀ (dg : List Nat → String) (content : List Nat)
        (fault : Option GFSLibError),
      WFStore s →
      WFStore (Bucket.write_bytes dg s name content fault).1) ∧
    (∀ (e : Entry) (rest : List Entry), s.findById i = e :: rest →
      (e.doc.get_str "filename" = none → Bucket.filename s i = none) ∧
      (e.doc.get_i64 "length" = none → Bucket.size s i = none) ∧
      (e.doc.get_str "md5" = none → Bucket.md5 s i = none)) ∧
    (∀ (d : Document) (rest : List Document),
      s.findByName name = d :: rest →
      d.get_object_id "_id" = none → Bucket.id s name = none) := by
  refine ⟨?_, ?_, ?_, ?_⟩
  · intro hwf
    refine ⟨?_, ?_, ?_, ?_⟩
    · unfold Bucket.id
      cases hh : (s.findByName name).head? with
      | none => simp
      | some d =>
        obtain ⟨e, he, rfl⟩ := mem_findByName_doc (head?_mem hh)
        obtain ⟨o, ho⟩ := Option.isSome_iff_exists.mp (hwf e he).1
        simp only []
        rw [ho]
        simp
    · unfold Bucket.filename Bucket.find_one_by_id
      cases hh : (s.findById i).head? with
      | none => simp
      | some e =>
        have he := mem_findById (head?_mem hh)
        obtain ⟨v, hv⟩ := Option.isSome_iff_exists.mp (hwf e he).2.1
        simp only []
        rw [hv]
        simp
    · unfold Bucket.size Bucket.find_one_by_id
      cases hh : (s.findById i).head? with
      | none => simp
      | some e =>
        have he := mem_findById (head?_mem hh)
        obtain ⟨v, hv⟩ := Option.isSome_iff_exists.mp (hwf e he).2.2.1
        simp only []
        rw [hv]
        simp
    · unfold Bucket.md5 Bucket.find_one_by_id
      cases hh : (s.findById i).head? with
      | none => simp
      | some e =>
        have he := mem_findById (head?_mem hh)
        obtain ⟨v, hv⟩ := Option.isSome_iff_exists.mp (hwf e he).2.2.2
        simp only []
        rw [hv]
        simp
  · intro dg content fault hwf
    cases fault with
    | some e => exact hwf
    | none =>
      intro e he
      rw [show (Bucket.write_bytes dg s name content none).1
          = (Store.upload dg s name content none).1 from rfl,
        upload_none_fst] at he
      simp only [List.mem_append, List.mem_singleton] at he
      cases he with
      | inl h => exact hwf e h
      | inr h =>
        subst h
        exact ⟨by rw [filesDoc_get_object_id]; rfl,
          by rw [filesDoc_get_str_filename]; rfl,
          by rw [filesDoc_get_i64_length]; rfl,
          by rw [filesDoc_get_str_md5]; rfl⟩
  · intro e rest hfind
    have hh : (s.findById i).head? = some e := by
      rw [hfind]
      rfl
    refine ⟨?_, ?_, ?_⟩
    · intro hnone
      unfold Bucket.filename Bucket.find_one_by_id
      rw [hh]
      simp only []
      rw [hnone]
    · intro hnone
      unfold Bucket.size Bucket.find_one_by_id
      rw [hh]
      simp only []
      rw [hnone]
    · intro hnone
      unfold Bucket.md5 Bucket.find_one_by_id
      rw [hh]
      simp only []
      rw [hnone]
  · intro d rest hfind hnone
    unfold Bucket.id
    rw [hfind]
    simp only [List.head?_cons]
    rw [hnone]

theorem c10_accessors_unwrap_typed_fields_witness :
    Bucket.filename badStore ⟨0⟩ = none ∧
    Bucket.md5 badStore ⟨0⟩ = none :=
  ⟨((c10_accessors_unwrap_typed_fields badStore ⟨0⟩ "x").2.2.1 badEntry []
      (by decide)).1 (by decide),
   ((c10_accessors_unwrap_typed_fields badStore ⟨0⟩ "x").2.2.1 badEntry []
      (by decide)).2.2 (by decide)⟩

end GridFSExt
